import Mathlib

/-!
Verification of the model-faceoff concurrent multi-stream completion
orchestration layer.

Shallow embedding of:
 - `src/services/openrouter.ts` (stream decoder, cost accounting, free-model
   predicate),
 - `src/ipc/handlers.ts` (pre-flight credential gate of
   `openrouter:startStream`, the background streaming task, the
   active-streams registry),
 - `src/renderer/components/ModelComparison/ModelComparison.tsx` (panel
   orchestrator: `handleStreamChunk`, `handleSubmit`, conversation restore).

JavaScript strings are modelled as `String` where only equality and
concatenation matter, and as `List Char` inside the line decoder where
splitting, trimming and slicing matter.  Numbers are `Nat`/`Rat`
(`parseFloat`-ed price strings are modelled by their rational values).
`JSON.parse` of a stream payload is an oracle parameter
`parse : List Char → Option α` (`none` = throws).  Random UUIDs are
explicit parameters.
-/

namespace ModelFaceoff

/-- Message role (`'system' | 'user' | 'assistant'`). -/
inductive Role where
  | user
  | assistant
  | system
deriving DecidableEq, Repr

/-- `ChatMessage` from `openrouter.ts`. -/
structure ChatMessage where
  role : Role
  content : String
deriving DecidableEq, Repr

/-- `pricing` field of `OpenRouterModel`; the JSON carries price strings,
modelled by their `parseFloat` values. -/
structure Pricing where
  prompt : Rat
  completion : Rat
deriving DecidableEq, Repr

/-- `OpenRouterModel` from `openrouter.ts` (fields not read by the verified
code paths are omitted). -/
structure OpenRouterModel where
  id : String
  name : String
  pricing : Pricing
deriving DecidableEq, Repr

/-- `':free'` id-suffix test (`model.id.endsWith(':free')`), on char lists so
that it evaluates in the kernel. -/
def endsWithColonFree (s : String) : Bool :=
  (":free".toList).isSuffixOf s.toList

/-- `isFreeModel` from `openrouter.ts`: `:free` suffix or zero prompt and
completion price. -/
def isFreeModel (m : OpenRouterModel) : Bool :=
  endsWithColonFree m.id ||
    (decide (m.pricing.prompt = 0) && decide (m.pricing.completion = 0))

/-- `OpenRouterUsage` (native token counts are never read by the verified
code paths and are omitted; `cost` is OpenRouter's authoritative cost). -/
structure OpenRouterUsage where
  prompt_tokens : Nat
  completion_tokens : Nat
  total_tokens : Nat
  cost : Option Rat
deriving DecidableEq, Repr

/-- `calculateCost` from `openrouter.ts` (and its copy inside
`ModelComparison.tsx`): per-million-token linear pricing. -/
def calculateCost (promptTokens completionTokens : Nat)
    (promptPrice completionPrice : Rat) : Rat :=
  (promptTokens / 1000000 : Rat) * promptPrice +
    (completionTokens / 1000000 : Rat) * completionPrice

/-! ### Stream decoder (`streamCompletion` in `openrouter.ts`)

The decoder body reads the response incrementally, buffering a partial
trailing line across reads (`buffer = lines.pop()`), splitting on `'\n'`,
treating `data: `-marked lines as payloads, ending on the `[DONE]`
sentinel, and silently skipping payloads whose `JSON.parse` throws. -/

/-- Whitespace for the JS `trim()` call on a decoded line. -/
def jsWhitespace (c : Char) : Bool :=
  c == ' ' || c == '\t' || c == '\n' || c == '\r' ||
    c == '\x0b' || c == '\x0c'

/-- `line.trim()`. -/
def trimChars (l : List Char) : List Char :=
  ((l.dropWhile jsWhitespace).reverse.dropWhile jsWhitespace).reverse

/-- The SSE event marker `"data: "`. -/
def dataMarker : List Char := "data: ".toList

/-- The literal end-of-stream sentinel payload `"[DONE]"`. -/
def doneSentinel : List Char := "[DONE]".toList

/-- What one decoded line contributes to the chunk sequence. -/
inductive LineResult (α : Type) where
  | stop
  | chunk (c : α)
  | skip
deriving DecidableEq

/-- Per-line behaviour of the decoder loop body
(`openrouter.ts` lines 172-186): trim, check the `data: ` marker, slice off
the 6-character marker, return on `[DONE]`, otherwise parse and skip on
parse failure. -/
def processLine (parse : List Char → Option α) (line : List Char) :
    LineResult α :=
  let trimmed := trimChars line
  if dataMarker.isPrefixOf trimmed then
    let data := trimmed.drop 6
    if data = doneSentinel then .stop
    else
      match parse data with
      | some c => .chunk c
      | none => .skip
  else .skip

/-- Decoder state: the carried-over partial line, the chunks yielded so far,
and whether the generator has returned (saw `[DONE]`). -/
structure DecState (α : Type) where
  buffer : List Char
  output : List α
  finished : Bool
deriving DecidableEq

/-- Initial decoder state (`buffer = ''`). -/
def initDecState : DecState α := ⟨[], [], false⟩

/-- Processing one complete line inside the `for (const line of lines)`
loop; once the generator has returned, remaining lines are not reached. -/
def lineStep (parse : List Char → Option α) (s : DecState α)
    (line : List Char) : DecState α :=
  if s.finished then s
  else
    match processLine parse line with
    | .stop => { s with finished := true }
    | .chunk c => { s with output := s.output ++ [c] }
    | .skip => s

/-- The inner `for` loop over the complete lines of one read. -/
def processLines (parse : List Char → Option α) (s : DecState α)
    (ls : List (List Char)) : DecState α :=
  ls.foldl (lineStep parse) s

/-- `(buffer + chunkText).split('\n')` followed by `buffer = lines.pop()`:
returns the complete lines and the trailing partial line. -/
def splitNewlines : List Char → List (List Char) × List Char
  | [] => ([], [])
  | c :: cs =>
    let r := splitNewlines cs
    if c == '\n' then ([] :: r.1, r.2)
    else
      match r.1 with
      | l :: ls => ((c :: l) :: ls, r.2)
      | [] => ([], c :: r.2)

/-- One iteration of the outer read loop: append the read to the buffer,
split off complete lines, keep the partial trailer, process the lines.
After the generator has returned no further read is consumed. -/
def feed (parse : List Char → Option α) (s : DecState α)
    (input : List Char) : DecState α :=
  if s.finished then s
  else
    let split := splitNewlines (s.buffer ++ input)
    processLines parse { s with buffer := split.2 } split.1

/-- The chunk sequence produced by the whole read loop for a given
partition of the response text into successive reads. -/
def decodeReads (parse : List Char → Option α)
    (reads : List (List Char)) : List α :=
  (reads.foldl (feed parse) initDecState).output

/-- Observational equivalence of decoder states: same output, same
finished flag, and (when still running) the same buffer.  Once the
generator has returned the buffer is never read again. -/
def DecEquiv (s t : DecState α) : Prop :=
  s.output = t.output ∧ s.finished = t.finished ∧
    (s.finished = false → s.buffer = t.buffer)

/-- A concrete parse oracle for evaluating the decoder on sample
payloads: `"1"` and `"2"` are well-formed, everything else is
malformed. -/
def sampleParse : List Char → Option Nat := fun l =>
  if l = ['1'] then some 1 else if l = ['2'] then some 2 else none

/-- The transport response as `streamCompletion` observes it. -/
structure HttpResponse where
  ok : Bool
  status : Nat
  body : String
  stream : List (List Char)
deriving DecidableEq

/-- The `API error: ${status} - ${body}` failure thrown on a non-success
status. -/
structure UpstreamError where
  status : Nat
  body : String
deriving DecidableEq, Repr

/-- `streamCompletion` from `openrouter.ts`: non-success responses fail
immediately with status and body and yield nothing; otherwise the response
bytes are decoded incrementally.  (The `response.body` null check guards a
transport edge case outside this model.) -/
def streamCompletion (parse : List Char → Option α)
    (response : HttpResponse) : Except UpstreamError (List α) :=
  if !response.ok then .error ⟨response.status, response.body⟩
  else .ok (decodeReads parse response.stream)

/-! ### IPC handlers (`handlers.ts`)

`openrouter:startStream` reads the stored API key, rejects non-`:free`
model ids in free mode before any network call, registers an
`AbortController` under the stream id, and spawns a background task that
forwards decoded chunks to the renderer as `StreamChunkData` events. -/

/-- The wire format of one chunk event
(`StreamChunkData` in `types/window.ts`). -/
structure StreamChunkData where
  streamId : String
  content : String
  done : Bool
  usage : Option OpenRouterUsage
  latency_ms : Option Nat
  fullContent : Option String
  error : Option String
deriving DecidableEq, Repr

/-- Pre-flight credential gate of `openrouter:startStream`
(`handlers.ts` lines 280-291): in free mode (no stored key) a model id
without the `:free` suffix is rejected with `FREE_MODE_RESTRICTION`
before the abort controller is registered and before any fetch.
Returns the error code on rejection, `none` when dispatch proceeds. -/
def startStreamGate (apiKey : Option String) (model : String) :
    Option String :=
  if apiKey.isNone && !endsWithColonFree model then
    some "FREE_MODE_RESTRICTION"
  else none

/-- `delta` of one provider chunk choice. -/
structure DeltaPart where
  content : Option String
deriving DecidableEq

/-- One entry of a provider chunk's `choices`. -/
structure ChunkChoice where
  delta : DeltaPart
deriving DecidableEq

/-- A parsed provider `StreamChunk` as the background task consumes it
(`id`/`model`/`finish_reason` are never read there and are omitted). -/
structure ProviderChunk where
  choices : List ChunkChoice
  usage : Option OpenRouterUsage
deriving DecidableEq

/-- `chunk.choices[0]?.delta?.content || ''`. -/
def chunkContent (c : ProviderChunk) : String :=
  (c.choices.head?.bind (fun ch => ch.delta.content)).getD ""

/-- `let usage = { prompt_tokens: 0, completion_tokens: 0, total_tokens: 0 }`. -/
def zeroUsage : OpenRouterUsage := ⟨0, 0, 0, none⟩

/-- A partial-content event sent from inside the loop. -/
def mkPartialEvent (streamId content : String) : StreamChunkData :=
  ⟨streamId, content, false, none, none, none, none⟩

/-- The completion event sent after the loop. -/
def mkTerminalEvent (streamId : String) (usage : OpenRouterUsage)
    (latency : Nat) (fullContent : String) : StreamChunkData :=
  ⟨streamId, "", true, some usage, some latency, some fullContent, none⟩

/-- The error event sent from the catch branch. -/
def mkErrorEvent (streamId err : String) : StreamChunkData :=
  ⟨streamId, "", true, none, none, none, some err⟩

/-- The `for await` loop of the background task: each step carries the
decoded chunk and the sampled state of `abortController.signal.aborted`
at the top of that iteration (`if (aborted) break` runs before the chunk
is used).  Returns the partial events sent, the accumulated
`fullContent`, the last seen `usage`, and whether the loop broke on the
abort check. -/
def taskLoop (streamId : String) :
    List (ProviderChunk × Bool) → String → OpenRouterUsage →
      List StreamChunkData × String × OpenRouterUsage × Bool
  | [], fullContent, usage => ([], fullContent, usage, false)
  | (c, aborted) :: rest, fullContent, usage =>
    if aborted then ([], fullContent, usage, true)
    else
      let content := chunkContent c
      let fullContent' := fullContent ++ content
      let usage' := c.usage.getD usage
      let r := taskLoop streamId rest fullContent' usage'
      (mkPartialEvent streamId content :: r.1, r.2)

/-- The background task spawned by `openrouter:startStream`
(`handlers.ts` lines 307-350).  `steps` are the chunks the decoder
yields with the abort flag sampled per iteration; `failure` is a raise
from the decoder occurring after those steps (only reachable when the
loop did not break); `catchAborted` is the signal state when the catch
branch runs.  Returns the events sent to the renderer and whether the
handle was removed from the active-streams map (the `finally`). -/
def backgroundTask (streamId : String) (latency : Nat)
    (steps : List (ProviderChunk × Bool)) (failure : Option String)
    (catchAborted : Bool) : List StreamChunkData × Bool :=
  let r := taskLoop streamId steps "" zeroUsage
  if r.2.2.2 then
    (r.1 ++ [mkTerminalEvent streamId r.2.2.1 latency r.2.1], true)
  else
    match failure with
    | none => (r.1 ++ [mkTerminalEvent streamId r.2.2.1 latency r.2.1], true)
    | some err =>
      (r.1 ++ (if catchAborted then [] else [mkErrorEvent streamId err]),
       true)

/-! ### Panel orchestrator (`ModelComparison.tsx`) -/

/-- `PanelState`. -/
structure PanelState where
  modelId : Option String
  messages : List ChatMessage
  isStreaming : Bool
  currentResponse : String
  usage : Option OpenRouterUsage
  latency_ms : Option Nat
  error : Option String
deriving DecidableEq, Repr

/-- The initial/empty panel. -/
def emptyPanel : PanelState :=
  ⟨none, [], false, "", none, none, none⟩

/-- An api-log row as passed to `window.api.apiLogs.add` (the random
`id` is omitted). -/
structure ApiLogEntry where
  conversation_id : Option String
  model_id : String
  provider : String
  request_tokens : Nat
  response_tokens : Nat
  total_tokens : Nat
  latency_ms : Nat
  cost : Option Rat
  status : String
deriving DecidableEq, Repr

/-- A message row as passed to `window.api.messages.add` (the random
`id` is omitted). -/
structure MessageData where
  conversation_id : String
  role : Role
  content : String
  model_id : Option String
  panel_index : Option Nat
  tokens_prompt : Option Nat
  tokens_completion : Option Nat
  latency_ms : Option Nat
  cost : Option Rat
deriving DecidableEq, Repr

/-- The externally observable calls the orchestrator makes. -/
inductive Effect where
  | apiLogAdd (entry : ApiLogEntry)
  | messageAdd (msg : MessageData)
  | generateTitle (userMsg convId : String)
  | conversationCreate (id : String) (title : Option String)
      (modelIds : List String)
  | startStream (streamId modelId : String) (messages : List ChatMessage)
  | updateTitle (convId title : String)
deriving DecidableEq, Repr

/-- The orchestrator's state: the three panels, the per-panel active
stream ids, the seen-ids set (`loggedStreamIds`), the stream-to-model
map, the title-generation bookkeeping refs, the conversation id, the
loaded models list, the prompt box, and the fresh-stream-id counter. -/
structure OrchState where
  panels : List PanelState
  activeStreamIds : List (Option String)
  loggedStreamIds : List String
  streamModelMap : List (String × String)
  titleGenerated : Bool
  firstUserMessage : Option String
  expectedStreams : Nat
  completedStreams : Nat
  conversationId : Option String
  models : List OpenRouterModel
  prompt : String
  streamIdCounter : Nat
deriving DecidableEq, Repr

/-- `modelId.split('/')[0]`. -/
def providerOf (modelId : String) : String :=
  String.mk (modelId.toList.takeWhile (fun c => !(c == '/')))

/-- JS `x || null` on an optional number: `0` is falsy. -/
def jsNumOrNull (o : Option Nat) : Option Nat :=
  match o with
  | some 0 => none
  | x => x

/-- JS truthiness of an optional string: present and non-empty. -/
def truthyStr (o : Option String) : Bool :=
  match o with
  | some s => !(s == "")
  | none => false

/-- `data.usage.cost ?? (model ? calculateCost(...) : undefined)`
(`ModelComparison.tsx` lines 167-169): the authoritative cost when
present, else the per-million estimate when the model is known, else
undefined. -/
def streamCost (usageCost : Option Rat) (modelOpt : Option OpenRouterModel)
    (pt ct : Nat) : Option Rat :=
  match usageCost with
  | some c => some c
  | none =>
    modelOpt.map (fun m =>
      calculateCost pt ct m.pricing.prompt m.pricing.completion)

/-- `streamModelMap.current.delete(streamId)`. -/
def eraseKey (k : String) (m : List (String × String)) :
    List (String × String) :=
  m.filter (fun kv => !(kv.1 == k))

/-- The pure panel-state update of the chunk handler
(the `setPanels` updater, `ModelComparison.tsx` lines 229-252); also
returns whether the panel's active stream id is cleared. -/
def applyChunkToPanel (d : StreamChunkData) (p : PanelState) :
    PanelState × Bool :=
  if truthyStr d.error then
    ({ p with isStreaming := false, error := d.error }, true)
  else if d.done then
    let p1 := { p with isStreaming := false, usage := d.usage,
                       latency_ms := jsNumOrNull d.latency_ms }
    let p2 :=
      if truthyStr d.fullContent then
        { p1 with
            messages := p1.messages ++ [⟨.assistant, d.fullContent.getD ""⟩],
            currentResponse := "" }
      else p1
    (p2, true)
  else
    ({ p with currentResponse := p.currentResponse ++ d.content }, false)

/-- The completion-logging block of `handleStreamChunk`
(`ModelComparison.tsx` lines 158-226): on a first-seen done event insert
the id into `loggedStreamIds` and, when the stream's model is known and
usage is present, emit the api-log entry, persist the assistant message
(when a conversation exists), drop the stream-model map entry, count the
completion, and fire title generation once the count reaches the
expected count. -/
def completionStep (s : OrchState) (d : StreamChunkData)
    (panelIndex : Nat) : OrchState × List Effect :=
  if d.done && !(s.loggedStreamIds.contains d.streamId) then
        let s1 :=
          { s with loggedStreamIds := d.streamId :: s.loggedStreamIds }
        match s.streamModelMap.lookup d.streamId, d.usage with
        | some modelId, some usage =>
          let modelOpt := s.models.find? (fun m => m.id == modelId)
          let cost := streamCost usage.cost modelOpt
            usage.prompt_tokens usage.completion_tokens
          let logEntry : ApiLogEntry :=
            { conversation_id := s.conversationId
              model_id := modelId
              provider := providerOf modelId
              request_tokens := usage.prompt_tokens
              response_tokens := usage.completion_tokens
              total_tokens := usage.total_tokens
              latency_ms := d.latency_ms.getD 0
              cost := cost
              status := "success" }
          let msgEffects : List Effect :=
            match s.conversationId with
            | some cid =>
              [Effect.messageAdd
                { conversation_id := cid
                  role := .assistant
                  content := d.fullContent.getD ""
                  model_id := some modelId
                  panel_index := some panelIndex
                  tokens_prompt := some usage.prompt_tokens
                  tokens_completion := some usage.completion_tokens
                  latency_ms := d.latency_ms
                  cost := cost }]
            | none => []
          let s2 :=
            { s1 with
                streamModelMap := eraseKey d.streamId s1.streamModelMap
                completedStreams := s.completedStreams + 1 }
          match s.firstUserMessage, s.conversationId,
              (!s.titleGenerated &&
                decide (s.completedStreams + 1 ≥ s.expectedStreams) : Bool)
            with
          | some userMsg, some convId, true =>
            ({ s2 with titleGenerated := true },
             Effect.apiLogAdd logEntry ::
               msgEffects ++ [Effect.generateTitle userMsg convId])
          | _, _, _ => (s2, Effect.apiLogAdd logEntry :: msgEffects)
        | _, _ => (s1, [])
  else (s, [])

/-- `handleStreamChunk` (`ModelComparison.tsx` lines 154-253): look the
panel up by stream id (unknown ids are ignored), run the
completion-logging block, then apply the pure panel-state update. -/
def handleStreamChunk (s : OrchState) (d : StreamChunkData) :
    OrchState × List Effect :=
  match s.activeStreamIds.findIdx? (fun id => id == some d.streamId) with
  | none => (s, [])
  | some panelIndex =>
    let logStep := completionStep s d panelIndex
    let st := logStep.1
    let upd := applyChunkToPanel d (st.panels.getD panelIndex emptyPanel)
    let newActive :=
      if upd.2 then st.activeStreamIds.set panelIndex none
      else st.activeStreamIds
    ({ st with panels := st.panels.set panelIndex upd.1,
               activeStreamIds := newActive },
     logStep.2)

/-- Deliver a list of chunk events in order; the trace pairs each event's
stream id with the effects its delivery produced. -/
def runChunks (s : OrchState) :
    List StreamChunkData → OrchState × List (String × List Effect)
  | [] => (s, [])
  | d :: ds =>
    let r := handleStreamChunk s d
    let rest := runChunks r.1 ds
    (rest.1, (d.streamId, r.2) :: rest.2)

/-- The `.then` callback of the fire-and-forget title request
(`ModelComparison.tsx` lines 219-223): persist the returned title when
the call succeeded and returned a non-empty title. -/
def titleCallback (convId : String) (success : Bool)
    (data : Option String) : List Effect :=
  if success then
    match data with
    | some t => if !(t == "") then [Effect.updateTitle convId t] else []
    | none => []
  else []

/-- Result of `handleSubmit`: silently ignored (blank prompt),
synchronously rejected with the no-model-selected validation error, or
accepted with a new state and the calls made. -/
inductive SubmitResult where
  | ignored
  | validationError
  | ok (s : OrchState) (effects : List Effect)
deriving DecidableEq, Repr

/-- `if (!prompt.trim()) return;` — the prompt is all whitespace. -/
def promptBlank (s : String) : Bool :=
  s.toList.all jsWhitespace

/-- One iteration of the `panels.forEach` stream fan-out at the end of
`handleSubmit`: for a panel with a selected model, generate the next
`stream-N` id, record the panel and model associations, and start the
stream with the panel's accumulated history plus the new user message. -/
def dispatchStep (userMessage : ChatMessage)
    (acc : OrchState × List Effect) (p : Nat × PanelState) :
    OrchState × List Effect :=
  match p.2.modelId with
  | some mid =>
    let counter := acc.1.streamIdCounter + 1
    let streamId := "stream-" ++ toString counter
    ({ acc.1 with
         streamIdCounter := counter
         activeStreamIds := acc.1.activeStreamIds.set p.1 (some streamId)
         streamModelMap := (streamId, mid) :: acc.1.streamModelMap },
     acc.2 ++ [Effect.startStream streamId mid
       (p.2.messages ++ [userMessage])])
  | none => acc

/-- The `panels.forEach` stream fan-out over the pre-submit panel
snapshot. -/
def dispatchStreams (panels : List PanelState) (userMessage : ChatMessage)
    (s : OrchState) : OrchState × List Effect :=
  panels.enum.foldl (dispatchStep userMessage) (s, [])

/-- The create-conversation-if-needed step of `handleSubmit`: returns the
conversation id used for this exchange, the state after the
title-generation bookkeeping, and the persistence effect.  A new
conversation records the ordered non-null model ids, the literal prompt,
and the expected stream count. -/
def submitConvInfo (s : OrchState) (newConvId : String) :
    String × OrchState × List Effect :=
  match s.conversationId with
  | some cid => (cid, s, [])
  | none =>
    (newConvId,
     { s with
         conversationId := some newConvId
         firstUserMessage := some s.prompt
         titleGenerated := false
         expectedStreams :=
           (s.panels.filter (fun p => p.modelId.isSome)).length
         completedStreams := 0 },
     [Effect.conversationCreate newConvId none
       (s.panels.filterMap (fun p => p.modelId))])

/-- The `setPanels` updater of `handleSubmit`: append the user message
and set the streaming flag on panels with a model; reset the transient
response/usage/latency/error fields on every panel. -/
def submitPanelsUpdate (userMessage : ChatMessage)
    (panels : List PanelState) : List PanelState :=
  panels.map (fun p =>
    { p with
        messages :=
          if p.modelId.isSome then p.messages ++ [userMessage]
          else p.messages
        isStreaming := p.modelId.isSome
        currentResponse := ""
        usage := none
        latency_ms := none
        error := none })

/-- `handleSubmit` (`ModelComparison.tsx` lines 306-368).  A blank
prompt is ignored; zero selected models is rejected synchronously with
no effects; otherwise a conversation is created if none exists, the
shared user message is persisted once, every panel is updated, the
prompt box is cleared, and one stream is started per panel with a model.
`newConvId` stands for the `crypto.randomUUID()` result. -/
def handleSubmit (s : OrchState) (newConvId : String) : SubmitResult :=
  if promptBlank s.prompt then .ignored
  else if (s.panels.filter (fun p => p.modelId.isSome)).length == 0 then
    .validationError
  else
    let convInfo := submitConvInfo s newConvId
    let userMessage : ChatMessage := ⟨.user, s.prompt⟩
    let userEff := Effect.messageAdd
      { conversation_id := convInfo.1
        role := .user
        content := s.prompt
        model_id := none
        panel_index := none
        tokens_prompt := none
        tokens_completion := none
        latency_ms := none
        cost := none }
    let s2 := { convInfo.2.1 with
        panels := submitPanelsUpdate userMessage convInfo.2.1.panels
        prompt := "" }
    let r := dispatchStreams s.panels userMessage s2
    .ok r.1 (convInfo.2.2 ++ [userEff] ++ r.2)

/-! ### Conversation restore / replay
(`ModelComparison.tsx` lines 72-150) -/

/-- A persisted message row as read back from storage (fields the
restore effect does not use are omitted; `role` is the stored string). -/
structure StoredMessage where
  role : String
  content : String
  panel_index : Option Nat
deriving DecidableEq, Repr

/-- `messages.filter((m) => m.role === 'user')`. -/
def userMessagesOf (msgs : List StoredMessage) : List StoredMessage :=
  msgs.filter (fun m => m.role == "user")

/-- Panel `p`'s assistant replies, in stored order
(the `assistantMessagesByPanel` grouping restricted to `p`). -/
def panelAssistantOf (p : Nat) (msgs : List StoredMessage) :
    List StoredMessage :=
  msgs.filter (fun m => m.role == "assistant" && m.panel_index == some p)

/-- The `userMessages.forEach((userMsg, userIndex) => ...)` walk:
append each user turn, then the panel's reply at the same position when
one exists. -/
def buildWalk (panelAssistant : List StoredMessage) :
    List StoredMessage → Nat → List ChatMessage
  | [], _ => []
  | u :: us, i =>
    ⟨Role.user, u.content⟩ ::
      ((match panelAssistant[i]? with
        | some a => [⟨Role.assistant, a.content⟩]
        | none => []) ++ buildWalk panelAssistant us (i + 1))

/-- Panel `p`'s rebuilt chat history. -/
def buildPanelChat (p : Nat) (msgs : List StoredMessage) :
    List ChatMessage :=
  buildWalk (panelAssistantOf p msgs) (userMessagesOf msgs) 0

/-- The restored panel array: one panel per stored model id (at most 3),
padded to 3 with empty panels. -/
def restorePanels (modelIds : List String) (msgs : List StoredMessage) :
    List PanelState :=
  let newPanels := (modelIds.take 3).enum.map (fun p =>
    { emptyPanel with
        modelId := some p.2
        messages := buildPanelChat p.1 msgs })
  newPanels ++ List.replicate (3 - newPanels.length) emptyPanel

/-- The restore effect's state update: set the conversation id and
panels, and mark the title decision as already made
(`titleGenerated.current = true; firstUserMessage.current = null`).
`modelIds` is the parsed `conversation.models` list. -/
def restoreConversation (convId : String) (modelIds : List String)
    (msgs : List StoredMessage) (s : OrchState) : OrchState :=
  { s with
      conversationId := some convId
      panels := restorePanels modelIds msgs
      titleGenerated := true
      firstUserMessage := none }

/-- Modelled from the spec (§4.5): the claimed replay walk — consume the
user turns in order, pairing each with the panel's next unconsumed reply;
once the replies run out the remaining user turns stand alone. -/
def specReplayWalk :
    List StoredMessage → List StoredMessage → List ChatMessage
  | [], _ => []
  | u :: us, [] => ⟨Role.user, u.content⟩ :: specReplayWalk us []
  | u :: us, a :: as_ =>
    ⟨Role.user, u.content⟩ :: ⟨Role.assistant, a.content⟩ ::
      specReplayWalk us as_

/-! ### Effect counting helpers -/

/-- Is this effect an api-log append? -/
def isApiLog : Effect → Bool
  | .apiLogAdd _ => true
  | _ => false

/-- Is this effect a message persistence? -/
def isMessageAdd : Effect → Bool
  | .messageAdd _ => true
  | _ => false

/-- Is this effect a title-generation request? -/
def isGenTitle : Effect → Bool
  | .generateTitle _ _ => true
  | _ => false

/-- Is this effect a stream start? -/
def isStartStream : Effect → Bool
  | .startStream _ _ _ => true
  | _ => false

/-- The model ids of the stream-start effects, in order. -/
def startStreamModels (effs : List Effect) : List String :=
  effs.filterMap (fun e =>
    match e with
    | .startStream _ mid _ => some mid
    | _ => none)

/-- Number of trace steps that performed the completion side effects for
stream id `i` (a step performs them exactly when it appends an api-log
entry, and it does so only for its own event's stream id). -/
def completionSteps (i : String) (tr : List (String × List Effect)) : Nat :=
  (tr.filter (fun p => p.1 == i && p.2.any isApiLog)).length

/-- Number of title-generation requests issued along a trace. -/
def titleRequests (tr : List (String × List Effect)) : Nat :=
  ((tr.flatMap (fun p => p.2)).filter isGenTitle).length

/-! ### Concrete states for evaluating the orchestrator -/

/-- A sample model with prices 1.00 and 2.00 per million tokens. -/
def mxModel : OpenRouterModel := ⟨"mx", "Model X", ⟨1, 2⟩⟩

/-- A terminal chunk event for `stream-1` with usage 10/2/12, latency
41ms and full content `"Hello!"`. -/
def doneChunk1 : StreamChunkData :=
  ⟨"stream-1", "", true, some ⟨10, 2, 12, none⟩, some 41, some "Hello!",
   none⟩

/-- A mid-first-exchange state: one panel streaming `stream-1` on model
`mx`, conversation `c1` created by submit with prompt `"Hello"`. -/
def c1state : OrchState :=
  { panels := [{ emptyPanel with modelId := some "mx" }, emptyPanel,
               emptyPanel]
    activeStreamIds := [some "stream-1", none, none]
    loggedStreamIds := []
    streamModelMap := [("stream-1", "mx")]
    titleGenerated := false
    firstUserMessage := some "Hello"
    expectedStreams := 1
    completedStreams := 0
    conversationId := some "c1"
    models := [mxModel]
    prompt := ""
    streamIdCounter := 1 }

/-- The same shape of mid-exchange state for the title claim, with
conversation id `c3`. -/
def c3state : OrchState :=
  { c1state with conversationId := some "c3" }

/-- A later-exchange state of conversation `c3`: the title decision was
already made during the first exchange and a new prompt has been
typed. -/
def c3laterState : OrchState :=
  { c3state with titleGenerated := true, prompt := "Again" }

/-- Scenario A pre-submit state: panels `[mx, my, null]`, prompt
`"Hello"`, no conversation yet. -/
def scenarioAState : OrchState :=
  { panels := [{ emptyPanel with modelId := some "mx" },
               { emptyPanel with modelId := some "my" }, emptyPanel]
    activeStreamIds := [none, none, none]
    loggedStreamIds := []
    streamModelMap := []
    titleGenerated := false
    firstUserMessage := none
    expectedStreams := 0
    completedStreams := 0
    conversationId := none
    models := [mxModel]
    prompt := "Hello"
    streamIdCounter := 0 }

/-- A pre-submit state with no model selected on any panel. -/
def noModelState : OrchState :=
  { scenarioAState with panels := [emptyPanel, emptyPanel, emptyPanel] }

/-- A pre-submit state whose third panel has a null model but carries a
leftover error and usage from an earlier exchange. -/
def staleErrorState : OrchState :=
  { scenarioAState with
      panels := [{ emptyPanel with modelId := some "mx" },
                 ⟨none, [], false, "", some ⟨1, 1, 2, none⟩, none,
                  some "boom"⟩,
                 emptyPanel] }

/-! ## Decoder lemmas -/

/-- Line splitting composes across concatenation: the complete lines of
`a ++ b` are the complete lines of `a` followed by those of the carried
remainder of `a` prepended to `b`. -/
theorem splitNewlines_append (a b : List Char) :
    splitNewlines (a ++ b) =
      ((splitNewlines a).1 ++ (splitNewlines ((splitNewlines a).2 ++ b)).1,
       (splitNewlines ((splitNewlines a).2 ++ b)).2) := by
  induction a with
  | nil => simp [splitNewlines]
  | cons c cs ih =>
    by_cases hc : c == '\n'
    · simp [splitNewlines, hc, ih]
    · cases h1 : (splitNewlines cs).1 with
      | cons l ls => simp [splitNewlines, hc, ih, h1]
      | nil =>
        cases h2 : (splitNewlines ((splitNewlines cs).2 ++ b)).1 with
        | cons m ms => simp [splitNewlines, hc, ih, h1, h2]
        | nil => simp [splitNewlines, hc, ih, h1, h2]

/-- The line loop does not touch the carried buffer. -/
theorem processLines_buffer (parse : List Char → Option α)
    (s : DecState α) (ls : List (List Char)) :
    (processLines parse s ls).buffer = s.buffer := by
  induction ls generalizing s with
  | nil => rfl
  | cons l ls ih =>
    show (processLines parse (lineStep parse s l) ls).buffer = s.buffer
    rw [ih]
    unfold lineStep
    split
    · rfl
    · split <;> rfl

/-- The line loop reads only the output and the finished flag, never the
buffer. -/
theorem processLines_buffer_indep (parse : List Char → Option α)
    (ls : List (List Char)) (b b' : List Char) (o : List α) (f : Bool) :
    processLines parse ⟨b, o, f⟩ ls =
      ⟨b, (processLines parse ⟨b', o, f⟩ ls).output,
          (processLines parse ⟨b', o, f⟩ ls).finished⟩ := by
  induction ls generalizing o f with
  | nil => rfl
  | cons l ls ih =>
    have hstep : ∀ bb : List Char, lineStep parse (⟨bb, o, f⟩ : DecState α) l =
        ⟨bb, (lineStep parse (⟨b', o, f⟩ : DecState α) l).output,
             (lineStep parse (⟨b', o, f⟩ : DecState α) l).finished⟩ := by
      intro bb
      unfold lineStep
      split
      · rfl
      · split <;> rfl
    show processLines parse (lineStep parse ⟨b, o, f⟩ l) ls =
      ⟨b, (processLines parse (lineStep parse ⟨b', o, f⟩ l) ls).output,
          (processLines parse (lineStep parse ⟨b', o, f⟩ l) ls).finished⟩
    rw [hstep b, hstep b']
    exact ih _ _

/-- After the `[DONE]` sentinel the line loop is inert. -/
theorem processLines_finished (parse : List Char → Option α)
    (s : DecState α) (ls : List (List Char)) (h : s.finished = true) :
    processLines parse s ls = s := by
  induction ls with
  | nil => rfl
  | cons l ls ih =>
    show processLines parse (lineStep parse s l) ls = s
    rw [show lineStep parse s l = s from by unfold lineStep; rw [h]; rfl]
    exact ih

/-- The line loop over concatenated line lists. -/
theorem processLines_append (parse : List Char → Option α)
    (s : DecState α) (l1 l2 : List (List Char)) :
    processLines parse s (l1 ++ l2) =
      processLines parse (processLines parse s l1) l2 :=
  List.foldl_append _ _ _ _

/-- `DecEquiv` is reflexive. -/
theorem DecEquiv.refl (s : DecState α) : DecEquiv s s :=
  ⟨rfl, rfl, fun _ => rfl⟩

/-- `DecEquiv` is transitive. -/
theorem DecEquiv.trans {s t u : DecState α} (h1 : DecEquiv s t)
    (h2 : DecEquiv t u) : DecEquiv s u :=
  ⟨h1.1.trans h2.1, h1.2.1.trans h2.2.1,
   fun hf => (h1.2.2 hf).trans (h2.2.2 (h1.2.1 ▸ hf))⟩

/-- Two equivalent running states are equal. -/
theorem DecEquiv.eq_of_not_finished {s t : DecState α}
    (h : DecEquiv s t) (hf : s.finished = false) : s = t := by
  cases s
  cases t
  simp_all [DecEquiv]

/-- Feeding one read respects observational equivalence. -/
theorem feed_congr (parse : List Char → Option α) {s t : DecState α}
    (h : DecEquiv s t) (x : List Char) :
    DecEquiv (feed parse s x) (feed parse t x) := by
  by_cases hf : s.finished = true
  · have ht : t.finished = true := h.2.1 ▸ hf
    rw [show feed parse s x = s from by unfold feed; rw [hf]; rfl]
    rw [show feed parse t x = t from by unfold feed; rw [ht]; rfl]
    exact h
  · have hf' : s.finished = false := by simpa using hf
    rw [h.eq_of_not_finished hf']
    exact DecEquiv.refl _

/-- Feeding a concatenation of two reads is observationally the same as
feeding them one after the other: a partially received line is buffered
across reads rather than processed. -/
theorem feed_append (parse : List Char → Option α) (s : DecState α)
    (a b : List Char) :
    DecEquiv (feed parse (feed parse s a) b) (feed parse s (a ++ b)) := by
  by_cases hf : s.finished = true
  · rw [show feed parse s a = s from by unfold feed; rw [hf]; rfl]
    rw [show feed parse s b = s from by unfold feed; rw [hf]; rfl]
    rw [show feed parse s (a ++ b) = s from by unfold feed; rw [hf]; rfl]
    exact DecEquiv.refl s
  · have hf' : s.finished = false := by simpa using hf
    obtain ⟨buf, o, fl⟩ := s
    simp only at hf'
    subst hf'
    have hm : feed parse (⟨buf, o, false⟩ : DecState α) a =
        processLines parse ⟨(splitNewlines (buf ++ a)).2, o, false⟩
          (splitNewlines (buf ++ a)).1 := by
      unfold feed
      rfl
    have hsplit := splitNewlines_append (buf ++ a) b
    have hcomb : feed parse (⟨buf, o, false⟩ : DecState α) (a ++ b) =
        processLines parse
          (processLines parse
            ⟨(splitNewlines ((splitNewlines (buf ++ a)).2 ++ b)).2, o, false⟩
            (splitNewlines (buf ++ a)).1)
          (splitNewlines ((splitNewlines (buf ++ a)).2 ++ b)).1 := by
      unfold feed
      simp only [Bool.false_eq_true, if_false]
      rw [show buf ++ (a ++ b) = (buf ++ a) ++ b from (List.append_assoc _ _ _).symm]
      rw [hsplit]
      exact processLines_append _ _ _ _
    have hmshift := processLines_buffer_indep parse
      (splitNewlines (buf ++ a)).1
      (splitNewlines ((splitNewlines (buf ++ a)).2 ++ b)).2
      (splitNewlines (buf ++ a)).2 o false
    set m := processLines parse
      (⟨(splitNewlines (buf ++ a)).2, o, false⟩ : DecState α)
      (splitNewlines (buf ++ a)).1 with hmdef
    have hmbuf : m.buffer = (splitNewlines (buf ++ a)).2 := by
      rw [hmdef]
      exact processLines_buffer _ _ _
    rw [hm, hcomb, hmshift]
    by_cases hmf : m.finished = true
    · rw [show feed parse m b = m from by unfold feed; rw [hmf]; rfl]
      rw [processLines_finished parse _ _ (by simp [hmf])]
      exact ⟨rfl, by simp [hmf], fun hcon => by simp [hmf] at hcon⟩
    · have hmf' : m.finished = false := by simpa using hmf
      rw [show feed parse m b =
            processLines parse ⟨(splitNewlines (m.buffer ++ b)).2, m.output,
              m.finished⟩ (splitNewlines (m.buffer ++ b)).1 from by
          unfold feed
          rw [hmf']
          rfl]
      rw [hmbuf, hmf']
      exact DecEquiv.refl _

/-- Folding further reads respects observational equivalence. -/
theorem foldl_feed_congr (parse : List Char → Option α) {s t : DecState α}
    (h : DecEquiv s t) (rs : List (List Char)) :
    DecEquiv (rs.foldl (feed parse) s) (rs.foldl (feed parse) t) := by
  induction rs generalizing s t with
  | nil => exact h
  | cons r rs ih => exact ih (feed_congr parse h r)

/-- Reading a list of reads one by one is observationally the same as
reading their concatenation in one go. -/
theorem foldl_feed_flatten (parse : List Char → Option α)
    (rs : List (List Char)) (a : List Char) (s : DecState α) :
    DecEquiv (rs.foldl (feed parse) (feed parse s a))
      (feed parse s (a ++ rs.flatten)) := by
  induction rs generalizing a s with
  | nil =>
    simp only [List.foldl_nil, List.flatten_nil, List.append_nil]
    exact DecEquiv.refl _
  | cons r rs ih =>
    simp only [List.foldl_cons, List.flatten_cons]
    have h1 := foldl_feed_congr parse (feed_append parse s a r) rs
    have h2 := ih (a ++ r) s
    rw [List.append_assoc] at h2
    exact h1.trans h2

/-- The decoded chunk sequence depends only on the concatenation of the
reads. -/
theorem decodeReads_flatten (parse : List Char → Option α)
    (reads : List (List Char)) :
    decodeReads parse reads = (feed parse initDecState reads.flatten).output := by
  cases reads with
  | nil =>
    show ([] : List α) = (feed parse initDecState [].flatten).output
    rfl
  | cons r rs =>
    show (rs.foldl (feed parse) (feed parse initDecState r)).output = _
    have h := foldl_feed_flatten parse rs r initDecState
    rw [show (r :: rs).flatten = r ++ rs.flatten from rfl]
    exact h.1

/-- Claim C6: for a fixed response byte sequence, the chunk sequence
yielded by `streamCompletion`'s read loop is identical for every
partition of the bytes into successive reads: partial lines are buffered
across reads rather than processed, and chunks appear exactly in the
order of their complete lines, with no reordering. -/
theorem c6_partition_invariance (parse : List Char → Option α)
    (reads1 reads2 : List (List Char))
    (h : reads1.flatten = reads2.flatten) :
    decodeReads parse reads1 = decodeReads parse reads2 := by
  rw [decodeReads_flatten, decodeReads_flatten, h]

/-- Witness for C6: the response text
`"data: 1\ndata: 2\ndata: [DONE]\n"` decodes to the same two chunks
whether it arrives in one read or split mid-line into three reads. -/
theorem c6_partition_invariance_witness :
    decodeReads sampleParse
        ["data: 1\nda".toList, "ta: 2\ndata:".toList, " [DONE]\n".toList] =
      decodeReads sampleParse ["data: 1\ndata: 2\ndata: [DONE]\n".toList] :=
  c6_partition_invariance sampleParse _ _ (by decide)

/-- Claim C4 (line level): a `data: `-marked line whose payload fails to
parse contributes nothing, and the rest of the line sequence decodes
exactly as if the malformed line were absent — later well-formed chunks
are still yielded in order and the `[DONE]` handling is unchanged. -/
theorem c4_malformed_line_skipped (parse : List Char → Option α)
    (s : DecState α) (pre post : List (List Char)) (bad : List Char)
    (hmark : dataMarker.isPrefixOf (trimChars bad) = true)
    (hparse : parse ((trimChars bad).drop 6) = none)
    (hnotdone : (trimChars bad).drop 6 ≠ doneSentinel) :
    processLines parse s (pre ++ bad :: post) =
      processLines parse s (pre ++ post) := by
  have hskip : processLine parse bad = LineResult.skip := by
    unfold processLine
    simp only [hmark, if_true, hparse]
    rw [if_neg hnotdone]
  have hstep : ∀ t : DecState α, lineStep parse t bad = t := by
    intro t
    unfold lineStep
    rw [hskip]
    split <;> rfl
  unfold processLines
  rw [List.foldl_append, List.foldl_append, List.foldl_cons, hstep]

/-- Witness for C4: dropping the malformed payload line `data: oops`
leaves the decoding of the surrounding lines unchanged. -/
theorem c4_malformed_line_skipped_witness :
    processLines sampleParse initDecState
        ["data: 1".toList, "data: oops".toList, "data: 2".toList] =
      processLines sampleParse initDecState
        ["data: 1".toList, "data: 2".toList] :=
  c4_malformed_line_skipped sampleParse initDecState ["data: 1".toList]
    ["data: 2".toList] "data: oops".toList (by decide) (by decide)
    (by decide)

/-- Claim C5: a non-success transport response makes `streamCompletion`
fail immediately with a single upstream error carrying the status and
body, and no chunk is ever yielded. -/
theorem c5_upstream_error (parse : List Char → Option α)
    (response : HttpResponse) (h : response.ok = false) :
    streamCompletion parse response =
        Except.error ⟨response.status, response.body⟩ ∧
      ∀ chunks : List α, streamCompletion parse response ≠ Except.ok chunks := by
  have he : streamCompletion parse response =
      Except.error ⟨response.status, response.body⟩ := by
    unfold streamCompletion
    rw [h]
    rfl
  exact ⟨he, fun chunks hc => by rw [he] at hc; exact Except.noConfusion hc⟩

/-- Witness for C5: a 401 response with body `"unauthorized"` fails with
exactly that upstream error. -/
theorem c5_upstream_error_witness :
    streamCompletion sampleParse ⟨false, 401, "unauthorized", ["data: 1\n".toList]⟩ =
      Except.error ⟨401, "unauthorized"⟩ :=
  (c5_upstream_error sampleParse ⟨false, 401, "unauthorized", ["data: 1\n".toList]⟩
    rfl).1

/-! ## Conversation replay -/

/-- The indexed `forEach` walk of the restore effect equals the pairwise
walk against the panel's reply list with the first `i` replies
consumed. -/
theorem buildWalk_eq_specReplayWalk (asst : List StoredMessage)
    (users : List StoredMessage) (i : Nat) :
    buildWalk asst users i = specReplayWalk users (asst.drop i) := by
  induction users generalizing i with
  | nil => cases asst.drop i <;> rfl
  | cons u us ih =>
    cases hd : asst.drop i with
    | nil =>
      have hget : asst[i]? = none := by
        rw [← List.head?_drop, hd]
        rfl
      have hd1 : asst.drop (i + 1) = [] := by
        rw [← List.tail_drop, hd]
        rfl
      rw [show buildWalk asst (u :: us) i = ⟨Role.user, u.content⟩ ::
            ((match asst[i]? with
              | some a => [⟨Role.assistant, a.content⟩]
              | none => []) ++ buildWalk asst us (i + 1)) from rfl]
      rw [hget, ih, hd1]
      rfl
    | cons a t =>
      have hget : asst[i]? = some a := by
        rw [← List.head?_drop, hd]
        rfl
      have hd1 : asst.drop (i + 1) = t := by
        rw [← List.tail_drop, hd]
        rfl
      rw [show buildWalk asst (u :: us) i = ⟨Role.user, u.content⟩ ::
            ((match asst[i]? with
              | some a => [⟨Role.assistant, a.content⟩]
              | none => []) ++ buildWalk asst us (i + 1)) from rfl]
      rw [hget, ih, hd1]
      rfl

/-- Claim C9: a restored panel `p`'s rebuilt history walks the stored
user messages in order, appending each user message and then the `i`-th
stored assistant message with `panel_index = p` when one exists at that
position; panels with fewer replies than user turns simply contribute no
assistant entry at the missing positions. -/
theorem c9_replay_interleaving (p : Nat) (msgs : List StoredMessage) :
    buildPanelChat p msgs =
      specReplayWalk (userMessagesOf msgs) (panelAssistantOf p msgs) := by
  unfold buildPanelChat
  rw [buildWalk_eq_specReplayWalk]
  rfl

/-! ## Free-mode gate (C7) -/

/-- Claim C7 fails on the code: `isFreeModel` flags a zero-priced model
without the `:free` suffix as free-tier (and free-mode `getModels` lists
it), but the `openrouter:startStream` gate checks only the id suffix and
rejects it with `FREE_MODE_RESTRICTION`; suffix-carrying models pass,
and any model passes once a key is stored. -/
theorem c7_free_gate_divergence :
    isFreeModel ⟨"test/zero-price", "Zero Price", ⟨0, 0⟩⟩ = true ∧
    startStreamGate none "test/zero-price" = some "FREE_MODE_RESTRICTION" ∧
    isFreeModel ⟨"meta-llama/llama-3.2-3b-instruct:free", "Llama 3B", ⟨0, 0⟩⟩
        = true ∧
    startStreamGate none "meta-llama/llama-3.2-3b-instruct:free" = none ∧
    startStreamGate (some "sk-or-key") "test/zero-price" = none := by
  decide

/-! ## Cost accounting (C8) -/

/-- Claim C8: a terminal chunk's recorded cost is the authoritative
usage cost when present, else the per-million-token estimate
`(prompt_tokens / 1e6) * prompt_price + (completion_tokens / 1e6) *
completion_price` when the model's prices are known (10 prompt and 2
completion tokens at prices 1.00 and 2.00 give 0.000014), and is left
undefined when neither is available. -/
theorem c8_cost_resolution :
    (∀ (c : Rat) (modelOpt : Option OpenRouterModel) (pt ct : Nat),
        streamCost (some c) modelOpt pt ct = some c) ∧
    (∀ (m : OpenRouterModel) (pt ct : Nat),
        streamCost none (some m) pt ct =
          some (calculateCost pt ct m.pricing.prompt m.pricing.completion)) ∧
    (∀ pt ct : Nat, streamCost none none pt ct = none) ∧
    calculateCost 10 2 1 2 = 0.000014 := by
  refine ⟨fun _ _ _ _ => rfl, fun _ _ _ => rfl, fun _ _ => rfl, ?_⟩
  norm_num [calculateCost]

/-! ## Background task on failure (C10) -/

/-- When no loop iteration observes the abort signal, the loop emits
only `done = false` partial events and does not break. -/
theorem taskLoop_no_abort (sid : String)
    (steps : List (ProviderChunk × Bool)) (fc : String)
    (u : OpenRouterUsage) (h : ∀ p ∈ steps, p.2 = false) :
    (taskLoop sid steps fc u).2.2.2 = false ∧
    ∀ e ∈ (taskLoop sid steps fc u).1, e.done = false := by
  induction steps generalizing fc u with
  | nil => exact ⟨rfl, fun e he => absurd he (List.not_mem_nil e)⟩
  | cons p rest ih =>
    obtain ⟨c, ab⟩ := p
    have hab : ab = false := h (c, ab) (List.mem_cons_self _ _)
    subst hab
    have hrest : ∀ q ∈ rest, q.2 = false :=
      fun q hq => h q (List.mem_cons_of_mem _ hq)
    have ihr := ih (fc ++ chunkContent c) (c.usage.getD u) hrest
    refine ⟨?_, ?_⟩
    · simpa [taskLoop] using ihr.1
    · intro e he
      simp only [taskLoop, Bool.false_eq_true, if_false, List.mem_cons] at he
      rcases he with he | he
      · rw [he]
        rfl
      · exact ihr.2 e he

/-- Claim C10: when the background task's stream fails after cancellation
was requested (abort signal set at the catch), no terminal or error
event is emitted after the partial events — every emitted event has
`done = false` — while the stream handle is still removed from the
active-streams map; the error event is emitted exactly when the signal
was not aborted. -/
theorem c10_abort_suppresses_failure_event (streamId : String)
    (latency : Nat) (steps : List (ProviderChunk × Bool)) (err : String)
    (hnobreak : ∀ p ∈ steps, p.2 = false) :
    (∀ e ∈ (backgroundTask streamId latency steps (some err) true).1,
        e.done = false) ∧
    (backgroundTask streamId latency steps (some err) true).2 = true ∧
    (backgroundTask streamId latency steps (some err) false).1 =
      (backgroundTask streamId latency steps (some err) true).1 ++
        [mkErrorEvent streamId err] := by
  have hloop := taskLoop_no_abort streamId steps "" zeroUsage hnobreak
  refine ⟨?_, ?_, ?_⟩
  · intro e he
    simp [backgroundTask, hloop.1] at he
    exact hloop.2 e he
  · simp [backgroundTask, hloop.1]
  · simp [backgroundTask, hloop.1]

/-! ## Exactly-once completion side effects (C1, C3) -/

/-- An already-seen stream id short-circuits the completion block: no
state change, no effects. -/
theorem completionStep_of_logged (s : OrchState) (d : StreamChunkData)
    (k : Nat) (h : s.loggedStreamIds.contains d.streamId = true) :
    completionStep s d k = (s, []) := by
  unfold completionStep
  rw [h]
  simp

/-- Master case analysis of the completion block: either the guard was
false and nothing happened, or the id was inserted into the seen set,
the title flag afterwards reflects whether this delivery fired the
title request, at most one title request was emitted, and a set title
flag suppresses any new request. -/
theorem completionStep_master (s : OrchState) (d : StreamChunkData)
    (k : Nat) :
    completionStep s d k = (s, []) ∨
    ((completionStep s d k).1.loggedStreamIds =
        d.streamId :: s.loggedStreamIds ∧
      ((completionStep s d k).1.titleGenerated = true ↔
        (s.titleGenerated = true ∨
          (completionStep s d k).2.any isGenTitle = true)) ∧
      ((completionStep s d k).2.filter isGenTitle).length ≤ 1 ∧
      (s.titleGenerated = true →
        (completionStep s d k).2.filter isGenTitle = [])) := by
  by_cases hc : (d.done && !(s.loggedStreamIds.contains d.streamId)) = true
  · right
    simp only [Bool.and_eq_true, Bool.not_eq_true'] at hc
    obtain ⟨hdone, hmem0⟩ := hc
    have hmem : d.streamId ∉ s.loggedStreamIds := by simpa using hmem0
    cases hl : s.streamModelMap.lookup d.streamId with
    | none => simp [completionStep, hdone, hmem, hl, isGenTitle]
    | some mid =>
      cases hu : d.usage with
      | none => simp [completionStep, hdone, hmem, hl, hu, isGenTitle]
      | some u =>
        cases hf : s.firstUserMessage with
        | none =>
          cases hco : s.conversationId <;>
            simp [completionStep, hdone, hmem, hl, hu, hf, hco, isGenTitle]
        | some um =>
          cases hco : s.conversationId with
          | none =>
            simp [completionStep, hdone, hmem, hl, hu, hf, hco, isGenTitle]
          | some cid =>
            by_cases ht : s.titleGenerated = true
            · have hb : (!s.titleGenerated &&
                  decide (s.completedStreams + 1 ≥ s.expectedStreams)) =
                    false := by simp [ht]
              simp [completionStep, hdone, hmem, hl, hu, hf, hco, hb, ht,
                isGenTitle]
            · have ht' : s.titleGenerated = false := by simpa using ht
              by_cases hge : s.expectedStreams ≤ s.completedStreams + 1
              · have hd : decide (s.expectedStreams ≤ s.completedStreams + 1)
                    = true := decide_eq_true hge
                simp [completionStep, hdone, hmem, hl, hu, hf, hco, hd, ht',
                  isGenTitle]
              · have hd : decide (s.expectedStreams ≤ s.completedStreams + 1)
                    = false := decide_eq_false hge
                simp [completionStep, hdone, hmem, hl, hu, hf, hco, hd, ht',
                  isGenTitle]
  · left
    simp only [completionStep]
    rw [if_neg]
    simpa using hc

/-- The completion block never removes an id from the seen set. -/
theorem completionStep_logged_mono (s : OrchState) (d : StreamChunkData)
    (k : Nat) (i : String) (h : s.loggedStreamIds.contains i = true) :
    (completionStep s d k).1.loggedStreamIds.contains i = true := by
  rcases completionStep_master s d k with hm | hm
  · rw [hm]
    exact h
  · rw [hm.1]
    simp only [List.contains_cons]
    simp at h ⊢
    exact Or.inr h

/-- If the completion block emitted anything, the event's stream id is in
the seen set afterwards. -/
theorem completionStep_effects_logged (s : OrchState)
    (d : StreamChunkData) (k : Nat)
    (h : (completionStep s d k).2 ≠ []) :
    (completionStep s d k).1.loggedStreamIds.contains d.streamId = true := by
  rcases completionStep_master s d k with hm | hm
  · rw [hm] at h
    simp at h
  · rw [hm.1]
    simp

/-- The completion block never resets the title-generated flag. -/
theorem completionStep_title_mono (s : OrchState) (d : StreamChunkData)
    (k : Nat) (h : s.titleGenerated = true) :
    (completionStep s d k).1.titleGenerated = true := by
  rcases completionStep_master s d k with hm | hm
  · rw [hm]
    exact h
  · exact hm.2.1.mpr (Or.inl h)

/-- Once the title-generated flag is set, the completion block never
requests another title. -/
theorem completionStep_title_no_effect (s : OrchState)
    (d : StreamChunkData) (k : Nat) (h : s.titleGenerated = true) :
    (completionStep s d k).2.filter isGenTitle = [] := by
  rcases completionStep_master s d k with hm | hm
  · rw [hm]
    rfl
  · exact hm.2.2.2 h

/-- If the completion block requested a title, the flag is set in the
resulting state. -/
theorem completionStep_title_effect_sets (s : OrchState)
    (d : StreamChunkData) (k : Nat)
    (h : (completionStep s d k).2.any isGenTitle = true) :
    (completionStep s d k).1.titleGenerated = true := by
  rcases completionStep_master s d k with hm | hm
  · rw [hm] at h
    simp at h
  · exact hm.2.1.mpr (Or.inr h)

/-- One delivery requests at most one title. -/
theorem completionStep_title_le_one (s : OrchState)
    (d : StreamChunkData) (k : Nat) :
    ((completionStep s d k).2.filter isGenTitle).length ≤ 1 := by
  rcases completionStep_master s d k with hm | hm
  · rw [hm]
    simp
  · exact hm.2.2.1

/-- An unknown stream id (stale stream) makes the chunk handler ignore
the event entirely. -/
theorem handleStreamChunk_none (s : OrchState) (d : StreamChunkData)
    (hfx : s.activeStreamIds.findIdx? (fun x => x == some d.streamId) =
      none) : handleStreamChunk s d = (s, []) := by
  simp [handleStreamChunk, hfx]

/-- The panel-state update after the completion block changes neither
the effects nor the seen-ids set, title flag, or completion count. -/
theorem handleStreamChunk_proj (s : OrchState) (d : StreamChunkData)
    (k : Nat)
    (hfx : s.activeStreamIds.findIdx? (fun x => x == some d.streamId) =
      some k) :
    (handleStreamChunk s d).2 = (completionStep s d k).2 ∧
    (handleStreamChunk s d).1.loggedStreamIds =
      (completionStep s d k).1.loggedStreamIds ∧
    (handleStreamChunk s d).1.titleGenerated =
      (completionStep s d k).1.titleGenerated ∧
    (handleStreamChunk s d).1.completedStreams =
      (completionStep s d k).1.completedStreams := by
  simp [handleStreamChunk, hfx]

/-- Delivering any chunk event never removes an id from the seen set. -/
theorem handleStreamChunk_logged_mono (s : OrchState)
    (d : StreamChunkData) (i : String)
    (h : s.loggedStreamIds.contains i = true) :
    (handleStreamChunk s d).1.loggedStreamIds.contains i = true := by
  cases hfx : s.activeStreamIds.findIdx? (fun x => x == some d.streamId)
    with
  | none =>
    rw [handleStreamChunk_none s d hfx]
    exact h
  | some k =>
    rw [(handleStreamChunk_proj s d k hfx).2.1]
    exact completionStep_logged_mono s d k i h

/-- A later observation of an already-seen id performs no effects and
does not touch the completion count. -/
theorem handleStreamChunk_of_logged (s : OrchState) (d : StreamChunkData)
    (h : s.loggedStreamIds.contains d.streamId = true) :
    (handleStreamChunk s d).2 = [] ∧
    (handleStreamChunk s d).1.completedStreams = s.completedStreams := by
  cases hfx : s.activeStreamIds.findIdx? (fun x => x == some d.streamId)
    with
  | none =>
    rw [handleStreamChunk_none s d hfx]
    exact ⟨rfl, rfl⟩
  | some k =>
    have hp := handleStreamChunk_proj s d k hfx
    have hcs := completionStep_of_logged s d k h
    refine ⟨?_, ?_⟩
    · rw [hp.1, hcs]
    · rw [hp.2.2.2, hcs]

/-- If delivering an event produced any effect, the event's stream id is
in the seen set afterwards. -/
theorem handleStreamChunk_effects_logged (s : OrchState)
    (d : StreamChunkData) (h : (handleStreamChunk s d).2 ≠ []) :
    (handleStreamChunk s d).1.loggedStreamIds.contains d.streamId =
      true := by
  cases hfx : s.activeStreamIds.findIdx? (fun x => x == some d.streamId)
    with
  | none =>
    rw [handleStreamChunk_none s d hfx] at h
    simp at h
  | some k =>
    have hp := handleStreamChunk_proj s d k hfx
    rw [hp.1] at h
    rw [hp.2.1]
    exact completionStep_effects_logged s d k h

/-- Delivering a chunk event never resets the title-generated flag. -/
theorem handleStreamChunk_title_mono (s : OrchState)
    (d : StreamChunkData) (h : s.titleGenerated = true) :
    (handleStreamChunk s d).1.titleGenerated = true := by
  cases hfx : s.activeStreamIds.findIdx? (fun x => x == some d.streamId)
    with
  | none =>
    rw [handleStreamChunk_none s d hfx]
    exact h
  | some k =>
    rw [(handleStreamChunk_proj s d k hfx).2.2.1]
    exact completionStep_title_mono s d k h

/-- A set title flag suppresses any further title request. -/
theorem handleStreamChunk_title_no_effect (s : OrchState)
    (d : StreamChunkData) (h : s.titleGenerated = true) :
    (handleStreamChunk s d).2.filter isGenTitle = [] := by
  cases hfx : s.activeStreamIds.findIdx? (fun x => x == some d.streamId)
    with
  | none =>
    rw [handleStreamChunk_none s d hfx]
    rfl
  | some k =>
    rw [(handleStreamChunk_proj s d k hfx).1]
    exact completionStep_title_no_effect s d k h

/-- A delivery that requested a title leaves the flag set. -/
theorem handleStreamChunk_title_effect_sets (s : OrchState)
    (d : StreamChunkData)
    (h : (handleStreamChunk s d).2.any isGenTitle = true) :
    (handleStreamChunk s d).1.titleGenerated = true := by
  cases hfx : s.activeStreamIds.findIdx? (fun x => x == some d.streamId)
    with
  | none =>
    rw [handleStreamChunk_none s d hfx] at h
    simp at h
  | some k =>
    have hp := handleStreamChunk_proj s d k hfx
    rw [hp.1] at h
    rw [hp.2.2.1]
    exact completionStep_title_effect_sets s d k h

/-- One delivery requests at most one title. -/
theorem handleStreamChunk_title_le_one (s : OrchState)
    (d : StreamChunkData) :
    ((handleStreamChunk s d).2.filter isGenTitle).length ≤ 1 := by
  cases hfx : s.activeStreamIds.findIdx? (fun x => x == some d.streamId)
    with
  | none =>
    rw [handleStreamChunk_none s d hfx]
    simp
  | some k =>
    rw [(handleStreamChunk_proj s d k hfx).1]
    exact completionStep_title_le_one s d k

/-- Unfolding `completionSteps` over a trace step. -/
theorem completionSteps_cons (i sid : String) (effs : List Effect)
    (tr : List (String × List Effect)) :
    completionSteps i ((sid, effs) :: tr) =
      (if (sid == i && effs.any isApiLog) = true then 1 else 0) +
        completionSteps i tr := by
  simp only [completionSteps, List.filter_cons]
  split
  · rename_i hcond
    simp only [hcond, if_true, List.length_cons]
    omega
  · rename_i hcond
    simp only [Bool.not_eq_true] at hcond
    simp [hcond]

/-- Unfolding `titleRequests` over a trace step. -/
theorem titleRequests_cons (sid : String) (effs : List Effect)
    (tr : List (String × List Effect)) :
    titleRequests ((sid, effs) :: tr) =
      (effs.filter isGenTitle).length + titleRequests tr := by
  simp [titleRequests, List.flatMap_cons, List.filter_append]

/-- A non-empty filter means some element satisfies the predicate. -/
theorem any_of_filter_ne_nil {β : Type} (l : List β) (p : β → Bool)
    (h : l.filter p ≠ []) : l.any p = true := by
  rcases List.exists_mem_of_ne_nil _ h with ⟨x, hx⟩
  rw [List.mem_filter] at hx
  exact List.any_eq_true.mpr ⟨x, hx.1, hx.2⟩

/-- Once a stream id is in the seen set, no later delivery ever performs
completion side effects for it. -/
theorem runChunks_logged_zero (s : OrchState)
    (ds : List StreamChunkData) (i : String)
    (h : s.loggedStreamIds.contains i = true) :
    completionSteps i (runChunks s ds).2 = 0 := by
  induction ds generalizing s with
  | nil => rfl
  | cons d ds ih =>
    show completionSteps i ((d.streamId, (handleStreamChunk s d).2) ::
      (runChunks (handleStreamChunk s d).1 ds).2) = 0
    rw [completionSteps_cons, ih _ (handleStreamChunk_logged_mono s d i h)]
    by_cases hsid : (d.streamId == i) = true
    · have heq : d.streamId = i := eq_of_beq hsid
      have hnil := (handleStreamChunk_of_logged s d (heq ▸ h)).1
      simp [hnil]
    · simp only [Bool.not_eq_true] at hsid
      simp [hsid]

/-- Along any run, completion side effects execute at most once per
stream id. -/
theorem runChunks_completion_le_one (s : OrchState)
    (ds : List StreamChunkData) (i : String) :
    completionSteps i (runChunks s ds).2 ≤ 1 := by
  induction ds generalizing s with
  | nil => exact Nat.zero_le 1
  | cons d ds ih =>
    show completionSteps i ((d.streamId, (handleStreamChunk s d).2) ::
      (runChunks (handleStreamChunk s d).1 ds).2) ≤ 1
    rw [completionSteps_cons]
    by_cases hcond :
        (d.streamId == i && (handleStreamChunk s d).2.any isApiLog) = true
    · rw [Bool.and_eq_true] at hcond
      obtain ⟨hsid, hany⟩ := hcond
      have heq : d.streamId = i := eq_of_beq hsid
      have hne : (handleStreamChunk s d).2 ≠ [] := by
        intro hnil
        rw [hnil] at hany
        simp at hany
      have hlog := handleStreamChunk_effects_logged s d hne
      rw [heq] at hlog
      rw [runChunks_logged_zero _ _ _ hlog]
      split <;> simp
    · simp only [Bool.not_eq_true] at hcond
      simp only [hcond]
      simpa using ih (handleStreamChunk s d).1

/-- Once the title flag is set, no later delivery requests a title. -/
theorem runChunks_title_zero (s : OrchState) (ds : List StreamChunkData)
    (h : s.titleGenerated = true) :
    titleRequests (runChunks s ds).2 = 0 := by
  induction ds generalizing s with
  | nil => rfl
  | cons d ds ih =>
    show titleRequests ((d.streamId, (handleStreamChunk s d).2) ::
      (runChunks (handleStreamChunk s d).1 ds).2) = 0
    rw [titleRequests_cons, handleStreamChunk_title_no_effect s d h,
      ih _ (handleStreamChunk_title_mono s d h)]
    rfl

/-- Along any run, at most one title request is ever issued. -/
theorem runChunks_title_le_one (s : OrchState)
    (ds : List StreamChunkData) :
    titleRequests (runChunks s ds).2 ≤ 1 := by
  induction ds generalizing s with
  | nil => exact Nat.zero_le 1
  | cons d ds ih =>
    show titleRequests ((d.streamId, (handleStreamChunk s d).2) ::
      (runChunks (handleStreamChunk s d).1 ds).2) ≤ 1
    rw [titleRequests_cons]
    by_cases hz : ((handleStreamChunk s d).2.filter isGenTitle).length = 0
    · rw [hz]
      simpa using ih (handleStreamChunk s d).1
    · have hne : (handleStreamChunk s d).2.filter isGenTitle ≠ [] := by
        intro hnil
        rw [hnil] at hz
        exact hz rfl
      have hset := handleStreamChunk_title_effect_sets s d
        (any_of_filter_ne_nil _ _ hne)
      rw [runChunks_title_zero _ _ hset]
      have := handleStreamChunk_title_le_one s d
      omega

/-- First observation of a done event with known model, usage and
conversation: exactly one api-log append, exactly one message
persistence, the completion count increments, and the id enters the
seen set. -/
theorem completionStep_first_counts (s : OrchState) (d : StreamChunkData)
    (k : Nat) (mid : String) (u : OpenRouterUsage) (cid : String)
    (hdone : d.done = true)
    (hnl : s.loggedStreamIds.contains d.streamId = false)
    (hlk : s.streamModelMap.lookup d.streamId = some mid)
    (hus : d.usage = some u) (hconv : s.conversationId = some cid) :
    ((completionStep s d k).2.filter isApiLog).length = 1 ∧
    ((completionStep s d k).2.filter isMessageAdd).length = 1 ∧
    (completionStep s d k).1.completedStreams = s.completedStreams + 1 ∧
    (completionStep s d k).1.loggedStreamIds.contains d.streamId =
      true := by
  have hmem : d.streamId ∉ s.loggedStreamIds := by simpa using hnl
  cases hf : s.firstUserMessage with
  | none =>
    simp [completionStep, hdone, hmem, hlk, hus, hconv, hf, isApiLog,
      isMessageAdd, isGenTitle]
  | some um =>
    cases ht : s.titleGenerated with
    | true =>
      simp [completionStep, hdone, hmem, hlk, hus, hconv, hf, ht, isApiLog,
        isMessageAdd, isGenTitle]
    | false =>
      by_cases hge : s.expectedStreams ≤ s.completedStreams + 1
      · have hd : decide (s.expectedStreams ≤ s.completedStreams + 1) =
            true := decide_eq_true hge
        simp [completionStep, hdone, hmem, hlk, hus, hconv, hf, ht, hd,
          isApiLog, isMessageAdd, isGenTitle]
      · have hd : decide (s.expectedStreams ≤ s.completedStreams + 1) =
            false := decide_eq_false hge
        simp [completionStep, hdone, hmem, hlk, hus, hconv, hf, ht, hd,
          isApiLog, isMessageAdd, isGenTitle]

/-- The completion block fires exactly one title request, carrying the
recorded first prompt and the conversation id, at the step where the
completion count reaches the expected count. -/
theorem completionStep_fire_title (s : OrchState) (d : StreamChunkData)
    (k : Nat) (mid : String) (u : OpenRouterUsage) (um cid : String)
    (hdone : d.done = true)
    (hnl : s.loggedStreamIds.contains d.streamId = false)
    (hlk : s.streamModelMap.lookup d.streamId = some mid)
    (hus : d.usage = some u) (hfum : s.firstUserMessage = some um)
    (hconv : s.conversationId = some cid)
    (htg : s.titleGenerated = false)
    (hge : s.expectedStreams ≤ s.completedStreams + 1) :
    (completionStep s d k).2.filter isGenTitle =
      [Effect.generateTitle um cid] ∧
    (completionStep s d k).1.titleGenerated = true := by
  have hmem : d.streamId ∉ s.loggedStreamIds := by simpa using hnl
  have hd : decide (s.expectedStreams ≤ s.completedStreams + 1) = true :=
    decide_eq_true hge
  simp [completionStep, hdone, hmem, hlk, hus, hfum, hconv, htg, hd,
    isGenTitle]

/-- While the completion count is still below the expected count, no
title request is emitted. -/
theorem completionStep_no_title_below (s : OrchState)
    (d : StreamChunkData) (k : Nat)
    (hlt : s.completedStreams + 1 < s.expectedStreams) :
    (completionStep s d k).2.filter isGenTitle = [] := by
  have hd : decide (s.expectedStreams ≤ s.completedStreams + 1) = false :=
    decide_eq_false (by omega)
  by_cases hcb : (d.done && !(s.loggedStreamIds.contains d.streamId)) =
      true
  · simp only [Bool.and_eq_true, Bool.not_eq_true'] at hcb
    obtain ⟨hdone, hm0⟩ := hcb
    have hmem : d.streamId ∉ s.loggedStreamIds := by simpa using hm0
    cases hl : s.streamModelMap.lookup d.streamId with
    | none => simp [completionStep, hdone, hmem, hl, isGenTitle]
    | some mid =>
      cases hu : d.usage with
      | none => simp [completionStep, hdone, hmem, hl, hu, isGenTitle]
      | some u =>
        cases hf : s.firstUserMessage <;> cases hco : s.conversationId <;>
          simp [completionStep, hdone, hmem, hl, hu, hf, hco, hd,
            isGenTitle]
  · unfold completionStep
    rw [if_neg]
    · rfl
    · simpa using hcb

/-- `completionStep_no_title_below`, lifted to the chunk handler. -/
theorem handleStreamChunk_no_title_below (s : OrchState)
    (d : StreamChunkData)
    (hlt : s.completedStreams + 1 < s.expectedStreams) :
    (handleStreamChunk s d).2.filter isGenTitle = [] := by
  cases hfx : s.activeStreamIds.findIdx? (fun x => x == some d.streamId)
    with
  | none =>
    rw [handleStreamChunk_none s d hfx]
    rfl
  | some k =>
    rw [(handleStreamChunk_proj s d k hfx).1]
    exact completionStep_no_title_below s d k hlt

/-- Claim C1: for every stream id whose done event reaches the chunk
handler, the completion side effects (api-log append, message
persistence, completion counting) execute at most once across any run
of deliveries; an id already in the seen set produces no effects and no
count change; and the first observation of a done event with known
model, usage and conversation emits exactly one api-log append and one
message persistence, increments the completion count, and inserts the
id into the seen set. -/
theorem c1_completion_effects_at_most_once (s : OrchState)
    (ds : List StreamChunkData) (i : String) (d : StreamChunkData)
    (k : Nat) (mid : String) (u : OpenRouterUsage) (cid : String) :
    completionSteps i (runChunks s ds).2 ≤ 1 ∧
    (s.loggedStreamIds.contains d.streamId = true →
      (handleStreamChunk s d).2 = [] ∧
      (handleStreamChunk s d).1.completedStreams = s.completedStreams) ∧
    (s.activeStreamIds.findIdx? (fun x => x == some d.streamId) = some k →
      d.done = true →
      s.loggedStreamIds.contains d.streamId = false →
      s.streamModelMap.lookup d.streamId = some mid →
      d.usage = some u →
      s.conversationId = some cid →
        ((handleStreamChunk s d).2.filter isApiLog).length = 1 ∧
        ((handleStreamChunk s d).2.filter isMessageAdd).length = 1 ∧
        (handleStreamChunk s d).1.completedStreams =
          s.completedStreams + 1 ∧
        (handleStreamChunk s d).1.loggedStreamIds.contains d.streamId =
          true) := by
  refine ⟨runChunks_completion_le_one s ds i,
    handleStreamChunk_of_logged s d, ?_⟩
  intro hfx hdone hnl hlk hus hconv
  have hp := handleStreamChunk_proj s d k hfx
  have hc := completionStep_first_counts s d k mid u cid hdone hnl hlk
    hus hconv
  refine ⟨?_, ?_, ?_, ?_⟩
  · rw [hp.1]
    exact hc.1
  · rw [hp.1]
    exact hc.2.1
  · rw [hp.2.2.2]
    exact hc.2.2.1
  · rw [hp.2.1]
    exact hc.2.2.2

/-- Witness for C1: delivering the terminal chunk of `stream-1` to the
mid-exchange state appends exactly one api-log entry; a second delivery
of the same event produces no effects. -/
theorem c1_completion_effects_at_most_once_witness :
    (((handleStreamChunk c1state doneChunk1).2.filter isApiLog).length =
      1) ∧
    (handleStreamChunk
        (handleStreamChunk c1state doneChunk1).1 doneChunk1).2 = [] := by
  have h1 := ((c1_completion_effects_at_most_once c1state [] "stream-1"
    doneChunk1 0 "mx" ⟨10, 2, 12, none⟩ "c1").2.2 (by decide) (by decide)
    (by decide) (by decide) (by decide) (by decide)).1
  have h2 := ((c1_completion_effects_at_most_once
    (handleStreamChunk c1state doneChunk1).1 [] "stream-1" doneChunk1 0
    "mx" ⟨10, 2, 12, none⟩ "c1").2.1 (by decide)).1
  exact ⟨h1, h2⟩

/-- The fan-out fold leaves the title flag untouched and adds only
stream-start effects, so it never requests a title. -/
theorem dispatch_foldl_title (um : ChatMessage) :
    ∀ (l : List (Nat × PanelState)) (st : OrchState)
      (effs : List Effect),
      ((l.foldl (dispatchStep um) (st, effs)).1).titleGenerated =
        st.titleGenerated ∧
      ((l.foldl (dispatchStep um) (st, effs)).2).filter isGenTitle =
        effs.filter isGenTitle := by
  intro l
  induction l with
  | nil => intro st effs; exact ⟨rfl, rfl⟩
  | cons hd t ih =>
    intro st effs
    cases hp : hd.2.modelId with
    | none =>
      have hstep : dispatchStep um (st, effs) hd = (st, effs) := by
        simp [dispatchStep, hp]
      simp only [List.foldl_cons, hstep]
      exact ih st effs
    | some mid =>
      have hstep : dispatchStep um (st, effs) hd =
          ({ st with
               streamIdCounter := st.streamIdCounter + 1
               activeStreamIds := st.activeStreamIds.set hd.1
                 (some ("stream-" ++ toString (st.streamIdCounter + 1)))
               streamModelMap :=
                 ("stream-" ++ toString (st.streamIdCounter + 1), mid) ::
                   st.streamModelMap },
           effs ++ [Effect.startStream
             ("stream-" ++ toString (st.streamIdCounter + 1)) mid
             (hd.2.messages ++ [um])]) := by
        simp [dispatchStep, hp]
      simp only [List.foldl_cons, hstep]
      have hih := ih ({ st with
          streamIdCounter := st.streamIdCounter + 1
          activeStreamIds := st.activeStreamIds.set hd.1
            (some ("stream-" ++ toString (st.streamIdCounter + 1)))
          streamModelMap :=
            ("stream-" ++ toString (st.streamIdCounter + 1), mid) ::
              st.streamModelMap })
        (effs ++ [Effect.startStream
          ("stream-" ++ toString (st.streamIdCounter + 1)) mid
          (hd.2.messages ++ [um])])
      refine ⟨hih.1, ?_⟩
      rw [hih.2]
      simp [List.filter_append, isGenTitle]

/-- A submit against an existing conversation (a later exchange of the
same conversation) leaves the title flag untouched and issues no title
request of its own: the conversation-exists branch of `submitConvInfo`
keeps the bookkeeping refs, and the fan-out only starts streams. -/
theorem handleSubmit_existing_conv (s : OrchState) (nc cid : String)
    (hco : s.conversationId = some cid) :
    ∀ (s' : OrchState) (effs : List Effect),
      handleSubmit s nc = SubmitResult.ok s' effs →
        s'.titleGenerated = s.titleGenerated ∧
        effs.filter isGenTitle = [] := by
  intro s' effs heq
  cases hpb : promptBlank s.prompt with
  | true =>
    exfalso
    simp [handleSubmit, hpb] at heq
  | false =>
    by_cases hz :
        ((s.panels.filter (fun p => p.modelId.isSome)).length == 0) = true
    · exfalso
      simp only [handleSubmit, hpb, Bool.false_eq_true, if_false, hz,
        if_true] at heq
      exact SubmitResult.noConfusion heq
    · have hz' :
          ((s.panels.filter (fun p => p.modelId.isSome)).length == 0) =
            false := by simpa using hz
      simp only [handleSubmit, hpb, Bool.false_eq_true, if_false, hz',
        SubmitResult.ok.injEq] at heq
      obtain ⟨hs', heffs⟩ := heq
      have hci : submitConvInfo s nc = (cid, s, []) := by
        simp [submitConvInfo, hco]
      simp only [hci] at hs' heffs
      constructor
      · rw [← hs']
        exact (dispatch_foldl_title ⟨Role.user, s.prompt⟩
          s.panels.enum _ _).1
      · rw [← heffs]
        simp only [List.nil_append, List.filter_append, dispatchStreams]
        rw [(dispatch_foldl_title ⟨Role.user, s.prompt⟩
          s.panels.enum _ _).2]
        simp [isGenTitle]

/-- Claim C3: a conversation restored from storage never issues a title
request; along any run at most one title request is ever issued; the
request fires exactly at the step where the completion count reaches
the recorded expected count, carrying the recorded first prompt and the
conversation id; below the expected count nothing fires; the success
callback persists the returned title; and once the title decision is
made the trigger never re-fires — no later delivery run requests a
title, and a later exchange of the same conversation (a submit on the
existing conversation plus its delivery run) requests none either. -/
theorem c3_title_generation_once (convId : String)
    (modelIds : List String) (msgs : List StoredMessage)
    (s0 s : OrchState) (ds : List StreamChunkData) (d : StreamChunkData)
    (k : Nat) (mid um cid t : String) (u : OpenRouterUsage) :
    titleRequests
        (runChunks (restoreConversation convId modelIds msgs s0) ds).2 =
      0 ∧
    titleRequests (runChunks s ds).2 ≤ 1 ∧
    (s.activeStreamIds.findIdx? (fun x => x == some d.streamId) = some k →
      d.done = true →
      s.loggedStreamIds.contains d.streamId = false →
      s.streamModelMap.lookup d.streamId = some mid →
      d.usage = some u →
      s.firstUserMessage = some um →
      s.conversationId = some cid →
      s.titleGenerated = false →
      s.expectedStreams ≤ s.completedStreams + 1 →
        (handleStreamChunk s d).2.filter isGenTitle =
          [Effect.generateTitle um cid] ∧
        (handleStreamChunk s d).1.titleGenerated = true) ∧
    (s.completedStreams + 1 < s.expectedStreams →
      (handleStreamChunk s d).2.filter isGenTitle = []) ∧
    ((t == "") = false →
      titleCallback cid true (some t) = [Effect.updateTitle cid t]) ∧
    (s.titleGenerated = true → titleRequests (runChunks s ds).2 = 0) ∧
    (∀ (nc cid2 : String) (s' : OrchState) (effs : List Effect)
        (ds' : List StreamChunkData),
      s.titleGenerated = true →
      s.conversationId = some cid2 →
      handleSubmit s nc = SubmitResult.ok s' effs →
        effs.filter isGenTitle = [] ∧
        s'.titleGenerated = true ∧
        titleRequests (runChunks s' ds').2 = 0) := by
  refine ⟨runChunks_title_zero _ ds rfl, runChunks_title_le_one s ds,
    ?_, handleStreamChunk_no_title_below s d, ?_,
    fun htg => runChunks_title_zero s ds htg, ?_⟩
  · intro hfx hdone hnl hlk hus hfum hconv htg hge
    have hp := handleStreamChunk_proj s d k hfx
    have hc := completionStep_fire_title s d k mid u um cid hdone hnl hlk
      hus hfum hconv htg hge
    refine ⟨?_, ?_⟩
    · rw [hp.1]
      exact hc.1
    · rw [hp.2.2.1]
      exact hc.2
  · intro ht
    simp [titleCallback, ht]
  · intro nc cid2 s' effs ds' htg hco heq
    have h := handleSubmit_existing_conv s nc cid2 hco s' effs heq
    have htg' : s'.titleGenerated = true := by
      rw [h.1]
      exact htg
    exact ⟨h.2, htg', runChunks_title_zero s' ds' htg'⟩

/-- Witness for C3: the terminal chunk of `stream-1` completes the first
exchange of conversation `c3` and fires exactly the title request for
the recorded prompt `"Hello"`; the callback then persists the returned
title `"Greeting"`; and a later exchange of the same conversation —
submitting `"Again"` after the title decision was made — issues no
title request and keeps the flag set. -/
theorem c3_title_generation_once_witness :
    ((handleStreamChunk c3state doneChunk1).2.filter isGenTitle =
      [Effect.generateTitle "Hello" "c3"]) ∧
    (titleCallback "c3" true (some "Greeting") =
      [Effect.updateTitle "c3" "Greeting"]) ∧
    (match handleSubmit c3laterState "conv9" with
      | SubmitResult.ok s' effs =>
          effs.filter isGenTitle = [] ∧ s'.titleGenerated = true
      | _ => False) := by
  have h1 := ((c3_title_generation_once "cx" [] [] c3state c3state []
    doneChunk1 0 "mx" "Hello" "c3" "Greeting"
    ⟨10, 2, 12, none⟩).2.2.1 (by decide) (by decide) (by decide)
    (by decide) (by decide) (by decide) (by decide) (by decide)
    (by decide)).1
  have h2 := (c3_title_generation_once "cx" [] [] c3state c3state []
    doneChunk1 0 "mx" "Hello" "c3" "Greeting"
    ⟨10, 2, 12, none⟩).2.2.2.2.1 (by decide)
  refine ⟨h1, h2, ?_⟩
  cases heq : handleSubmit c3laterState "conv9" with
  | ok s' effs =>
    have h3 := (c3_title_generation_once "cx" [] [] c3laterState
      c3laterState [] doneChunk1 0 "mx" "Hello" "c3" "Greeting"
      ⟨10, 2, 12, none⟩).2.2.2.2.2.2 "conv9" "c3" s' effs [] rfl rfl heq
    exact ⟨h3.1, h3.2.1⟩
  | ignored => exact absurd heq (by decide)
  | validationError => exact absurd heq (by decide)

/-- Witness for C10: one successfully processed chunk, then a failure
with the signal aborted — the only event sent is the partial; with the
signal clear the same run also sends the error event. -/
theorem c10_abort_suppresses_failure_event_witness :
    (backgroundTask "s1" 5 [(⟨[⟨⟨some "Hi"⟩⟩], none⟩, false)] (some "boom")
        false).1 =
      (backgroundTask "s1" 5 [(⟨[⟨⟨some "Hi"⟩⟩], none⟩, false)] (some "boom")
        true).1 ++ [mkErrorEvent "s1" "boom"] :=
  (c10_abort_suppresses_failure_event "s1" 5
    [(⟨[⟨⟨some "Hi"⟩⟩], none⟩, false)] "boom" (by decide)).2.2

/-! ## Submit fan-out (C2) -/

/-- The fan-out fold only ever appends stream-start effects, one per
panel with a selected model, in panel order, and leaves the panel array
untouched. -/
theorem dispatch_foldl_effects (um : ChatMessage) :
    ∀ (l : List (Nat × PanelState)) (st : OrchState)
      (effs : List Effect),
      startStreamModels ((l.foldl (dispatchStep um) (st, effs)).2) =
        startStreamModels effs ++
          l.filterMap (fun p => p.2.modelId) ∧
      (((l.foldl (dispatchStep um) (st, effs)).2).filter
          isStartStream).length =
        (effs.filter isStartStream).length +
          (l.filter (fun p => p.2.modelId.isSome)).length ∧
      ((l.foldl (dispatchStep um) (st, effs)).1).panels = st.panels := by
  intro l
  induction l with
  | nil => intro st effs; simp
  | cons hd t ih =>
    intro st effs
    cases hp : hd.2.modelId with
    | none =>
      have hstep : dispatchStep um (st, effs) hd = (st, effs) := by
        simp [dispatchStep, hp]
      simp only [List.foldl_cons, hstep]
      have := ih st effs
      simp [this.1, this.2.1, this.2.2, hp, List.filterMap_cons,
        List.filter_cons]
    | some mid =>
      have hstep : dispatchStep um (st, effs) hd =
          ({ st with
               streamIdCounter := st.streamIdCounter + 1
               activeStreamIds := st.activeStreamIds.set hd.1
                 (some ("stream-" ++ toString (st.streamIdCounter + 1)))
               streamModelMap :=
                 ("stream-" ++ toString (st.streamIdCounter + 1), mid) ::
                   st.streamModelMap },
           effs ++ [Effect.startStream
             ("stream-" ++ toString (st.streamIdCounter + 1)) mid
             (hd.2.messages ++ [um])]) := by
        simp [dispatchStep, hp]
      simp only [List.foldl_cons, hstep]
      have := ih ({ st with
          streamIdCounter := st.streamIdCounter + 1
          activeStreamIds := st.activeStreamIds.set hd.1
            (some ("stream-" ++ toString (st.streamIdCounter + 1)))
          streamModelMap :=
            ("stream-" ++ toString (st.streamIdCounter + 1), mid) ::
              st.streamModelMap })
        (effs ++ [Effect.startStream
          ("stream-" ++ toString (st.streamIdCounter + 1)) mid
          (hd.2.messages ++ [um])])
      refine ⟨?_, ?_, this.2.2⟩
      · rw [this.1]
        simp [startStreamModels, List.filterMap_append, hp,
          List.filterMap_cons]
      · rw [this.2.1]
        simp [List.filter_append, isStartStream, List.filter_cons, hp]
        omega

/-- `List.enum` bookkeeping: filtering the enumerated panels by their
model selection matches filtering the panels directly. -/
theorem enum_filterMap_modelId (l : List PanelState) :
    l.enum.filterMap (fun p => p.2.modelId) =
      l.filterMap (fun p => p.modelId) := by
  have h := List.filterMap_map (f := Prod.snd (α := Nat) (β := PanelState))
    (g := fun p : PanelState => p.modelId) (l := l.enum)
  rw [List.enum_map_snd] at h
  exact h.symm

/-- `List.enum` bookkeeping for the selected-panel count. -/
theorem enum_filter_isSome_length (l : List PanelState) :
    (l.enum.filter (fun p => p.2.modelId.isSome)).length =
      (l.filter (fun p => p.modelId.isSome)).length := by
  have h := List.filter_map (f := Prod.snd (α := Nat) (β := PanelState))
    (p := fun p : PanelState => p.modelId.isSome) (l := l.enum)
  rw [List.enum_map_snd] at h
  rw [h, List.length_map]
  rfl

/-- The stream fan-out of `handleSubmit`: the started streams' model ids
are exactly the ordered non-null panel selections, the number of starts
equals the number of panels with a model, and the panel array is not
touched by the fan-out itself. -/
theorem dispatchStreams_effects (panels : List PanelState)
    (um : ChatMessage) (st : OrchState) :
    startStreamModels (dispatchStreams panels um st).2 =
      panels.filterMap (fun p => p.modelId) ∧
    ((dispatchStreams panels um st).2.filter isStartStream).length =
      (panels.filter (fun p => p.modelId.isSome)).length ∧
    (dispatchStreams panels um st).1.panels = st.panels := by
  unfold dispatchStreams
  have h := dispatch_foldl_effects um panels.enum st []
  refine ⟨?_, ?_, h.2.2⟩
  · rw [h.1, enum_filterMap_modelId]
    rfl
  · rw [h.2.1, enum_filter_isSome_length]
    simp [isStartStream]

/-- The conversation-creation step never touches the panels. -/
theorem submitConvInfo_panels (s : OrchState) (nc : String) :
    (submitConvInfo s nc).2.1.panels = s.panels := by
  cases hco : s.conversationId <;> simp [submitConvInfo, hco]

/-- A panel with no model keeps its message history through the submit
update; only its transient fields are reset. -/
theorem submitPanelsUpdate_null (um : ChatMessage)
    (panels : List PanelState) (i : Nat) (p : PanelState)
    (h : panels[i]? = some p) (hmid : p.modelId = none) :
    (submitPanelsUpdate um panels)[i]? =
      some { p with isStreaming := false, currentResponse := "",
                    usage := none, latency_ms := none, error := none } := by
  simp [submitPanelsUpdate, List.getElem?_map, h, hmid]

/-- `startStreamModels` distributes over append. -/
theorem startStreamModels_append (a b : List Effect) :
    startStreamModels (a ++ b) =
      startStreamModels a ++ startStreamModels b := by
  simp [startStreamModels, List.filterMap_append]

/-- Claim C2 (amended): with a non-blank prompt, zero selected models
yields a synchronous validation error with no effects; otherwise the
started streams' model ids are exactly the ordered non-null selections
(one start per selected panel), panels with a null model keep their
message history — though their transient response/usage/latency/error
fields are reset like every panel's — and a newly created conversation
records exactly the ordered non-null model ids. -/
theorem c2_submit_fanout (s : OrchState) (newConvId : String)
    (hprompt : promptBlank s.prompt = false) :
    ((∀ p ∈ s.panels, p.modelId = none) →
      handleSubmit s newConvId = SubmitResult.validationError) ∧
    (∀ s' effs, handleSubmit s newConvId = SubmitResult.ok s' effs →
      startStreamModels effs = s.panels.filterMap (fun p => p.modelId) ∧
      (effs.filter isStartStream).length =
        (s.panels.filter (fun p => p.modelId.isSome)).length ∧
      (∀ (i : Nat) (p : PanelState), s.panels[i]? = some p →
        p.modelId = none →
        s'.panels[i]? =
          some { p with isStreaming := false, currentResponse := "",
                        usage := none, latency_ms := none,
                        error := none }) ∧
      (s.conversationId = none →
        Effect.conversationCreate newConvId none
          (s.panels.filterMap (fun p => p.modelId)) ∈ effs)) := by
  constructor
  · intro hall
    have hfil : s.panels.filter (fun p => p.modelId.isSome) = [] :=
      List.filter_eq_nil_iff.mpr (fun p hp => by simp [hall p hp])
    simp [handleSubmit, hprompt, hfil]
  · intro s' effs heq
    by_cases hz :
        ((s.panels.filter (fun p => p.modelId.isSome)).length == 0) = true
    · exfalso
      simp only [handleSubmit, hprompt, Bool.false_eq_true, if_false,
        hz, if_true] at heq
      exact SubmitResult.noConfusion heq
    · have hz' :
          ((s.panels.filter (fun p => p.modelId.isSome)).length == 0) =
            false := by simpa using hz
      simp only [handleSubmit, hprompt, Bool.false_eq_true, if_false,
        hz', SubmitResult.ok.injEq] at heq
      obtain ⟨hs', heffs⟩ := heq
      have hd := dispatchStreams_effects s.panels ⟨Role.user, s.prompt⟩
        ({ (submitConvInfo s newConvId).2.1 with
            panels := submitPanelsUpdate ⟨Role.user, s.prompt⟩
              (submitConvInfo s newConvId).2.1.panels
            prompt := "" })
      have hconvfx :
          startStreamModels (submitConvInfo s newConvId).2.2 = [] ∧
          ((submitConvInfo s newConvId).2.2.filter isStartStream) = [] := by
        cases hco : s.conversationId <;>
          simp [submitConvInfo, hco, startStreamModels, isStartStream]
      refine ⟨?_, ?_, ?_, ?_⟩
      · rw [← heffs, startStreamModels_append, startStreamModels_append,
          hconvfx.1]
        rw [hd.1]
        simp [startStreamModels]
      · rw [← heffs]
        simp [List.filter_append, hconvfx.2, isStartStream, hd.2.1]
      · intro i p hp hmid
        rw [← hs']
        rw [hd.2.2]
        show (submitPanelsUpdate ⟨Role.user, s.prompt⟩
          (submitConvInfo s newConvId).2.1.panels)[i]? = _
        rw [submitConvInfo_panels]
        exact submitPanelsUpdate_null _ _ i p hp hmid
      · intro hco
        rw [← heffs]
        have hcv : (submitConvInfo s newConvId).2.2 =
            [Effect.conversationCreate newConvId none
              (s.panels.filterMap (fun p => p.modelId))] := by
          simp [submitConvInfo, hco]
        rw [hcv]
        simp

/-- Witness for C2 (amended): submitting `"Hello"` with no model
selected anywhere is rejected synchronously with the validation
error. -/
theorem c2_submit_fanout_witness :
    handleSubmit noModelState "conv-1" = SubmitResult.validationError :=
  (c2_submit_fanout noModelState "conv-1" (by decide)).1 (by decide)

/-- Counterexample to C2 as stated: submitting from a state whose second
panel has a null model but a leftover error clears that panel's error
field — the null-model panel is not left unchanged. -/
theorem c2_null_panel_not_unchanged :
    (match handleSubmit staleErrorState "conv-1" with
      | SubmitResult.ok s' _ => (s'.panels.getD 1 emptyPanel).error
      | _ => some "unreachable") = none ∧
    (staleErrorState.panels.getD 1 emptyPanel).error = some "boom" := by
  decide

end ModelFaceoff
